import Mathlib

/-!
Verification of the diff-change classifier of the Static_Tool_Analysis_RP
repository.  The component under study is the function
`analyze_commit_changes` in `repo_fix_summary_get_line_class_method.py`
(the "extended variant" that tracks line numbers and class/method context);
its first counting loop is shared verbatim with `repo_vul_files.py` and
`repo_fix_summary(deprecated).py`.

The embedding models Python strings as lists of characters (`PyStr`) and
gives faithful, executable translations of the string primitives the script
uses (`str.split` with a non-empty separator, `str.strip`, `str.startswith`,
the `in` operator, `int(...)`) together with the dictionary semantics the
script relies on (`defaultdict` default insertion, `KeyError` on a missing
key, `IndexError` on out-of-range list indexing, `ValueError` from `int`).
Exceptions are modelled with `Except`; the function's blanket
`except Exception` handler corresponds to the `.error` constructor of the
result type.
-/

/-- Python strings are modelled as lists of characters. -/
abbrev PyStr := List Char

/-- Embed a Lean string literal into the `PyStr` model. -/
def pstr (s : String) : PyStr := s.data

/-- Python `s.startswith(p)` — here `pyStartswith p s`. -/
def pyStartswith : PyStr → PyStr → Bool
  | [], _ => true
  | _ :: _, [] => false
  | p :: ps, c :: cs => if p = c then pyStartswith ps cs else false

/-- Python `needle in s` (substring containment) — here `pyContains needle s`. -/
def pyContains (needle : PyStr) : PyStr → Bool
  | [] => pyStartswith needle []
  | c :: rest => pyStartswith needle (c :: rest) || pyContains needle rest

/-- All positions of `l` at which `sep` occurs (including overlapping ones). -/
def occPos (sep l : PyStr) : List Nat :=
  (List.range (l.length + 1)).filter (fun i => pyStartswith sep (l.drop i))

/-- Greedy left-to-right selection of non-overlapping occurrence positions,
given the ascending list of all occurrence positions and the separator
length `k`: keep a position only if it starts at or after the end of the
previously kept occurrence.  This reproduces how CPython's `str.split`
scans the string. -/
def greedySel (k : Nat) : List Nat → Nat → List Nat
  | [], _ => []
  | p :: ps, m => if p < m then greedySel k ps m else p :: greedySel k ps (p + k)

/-- Cut `l` at the given (ascending, non-overlapping) separator positions,
each separator occupying `k` characters, starting the current piece at `s`. -/
def cutAt (l : PyStr) (k : Nat) : List Nat → Nat → List PyStr
  | [], s => [l.drop s]
  | p :: ps, s => (l.drop s).take (p - s) :: cutAt l k ps (p + k)

/-- Python `s.split(sep)` for a non-empty separator `sep`. -/
def pySplit (sep l : PyStr) : List PyStr :=
  cutAt l sep.length (greedySel sep.length (occPos sep l) 0) 0

/-- The whitespace characters stripped by Python `str.strip()` (ASCII range). -/
def pyIsSpaceChar (c : Char) : Bool :=
  c = ' ' || c = '\t' || c = '\n' || c = '\r' || c = '\x0b' || c = '\x0c'

/-- Python `s.strip()`. -/
def pyStrip (l : PyStr) : PyStr :=
  ((l.dropWhile pyIsSpaceChar).reverse.dropWhile pyIsSpaceChar).reverse

/-- Exceptions that the modelled code can raise.  `str(e)` of a Python
`KeyError` is the quoted key and of a `ValueError` from `int` it quotes the
offending argument, so carrying the key/argument string preserves the
diagnostic content. -/
inductive PyErr where
  | keyError (k : PyStr)
  | valueError (arg : PyStr)
  | indexError
deriving DecidableEq

/-- Python list indexing `xs[i]` for `i ≥ 0`: `IndexError` when out of range. -/
def pyIdx (xs : List PyStr) (i : Nat) : Except PyErr PyStr :=
  match xs[i]? with
  | some x => .ok x
  | none => .error .indexError

/-- `xs[0]` of a `pySplit` result (`pySplit` always returns a non-empty
list, so Python's `[0]` cannot fail there; the default is never used). -/
def firstPart (sep s : PyStr) : PyStr := (pySplit sep s).headD []

/-- `xs[1]` of a `pySplit` result under a guard that guarantees at least two
pieces (the script indexes `[1]` only under an `in`-containment guard; the
default is never reached under that guard). -/
def part1 (sep s : PyStr) : PyStr := (pySplit sep s).getD 1 []

/-- A digit character. -/
def isDigitChar (c : Char) : Bool := '0' ≤ c && c ≤ '9'

/-- Numeric value of a list of digit characters. -/
def digitsVal (l : List Char) : Nat :=
  l.foldl (fun a c => a * 10 + (c.toNat - '0'.toNat)) 0

/-- Python `int(s)`: strip whitespace, allow one optional sign, then require
a non-empty run of decimal digits; otherwise raise `ValueError` quoting the
original argument.  (Underscore digit grouping of Python numeric literals is
not modelled; no input in this development uses it.) -/
def pyInt (s : PyStr) : Except PyErr Int :=
  let t := pyStrip s
  let sd : Int × PyStr :=
    match t with
    | '+' :: r => (1, r)
    | '-' :: r => (-1, r)
    | r => (1, r)
  if !sd.2.isEmpty && sd.2.all isDigitChar then
    .ok (sd.1 * (digitsVal sd.2 : Int))
  else
    .error (.valueError s)

/-!
Data model of `analyze_commit_changes`.
-/

/-- One entry of `file_stats[f]["line_changes"]` (the `change_info` dict).
Field `typ` is the Python key `"type"`, `cls` is `"class"`, `meth` is
`"method"`. -/
structure ChangeInfo where
  typ : PyStr
  line_number : Int
  content : PyStr
  cls : Option PyStr
  meth : Option PyStr
deriving DecidableEq

/-- One entry of `file_stats[f]["class_method_changes"]`. -/
structure CMChangeInfo where
  cls : Option PyStr
  meth : Option PyStr
  key : PyStr
  line : Int
  typ : PyStr
  content : PyStr
deriving DecidableEq

/-- Per-file statistics dictionary.  The `defaultdict` initializer
`lambda: {"additions": 0, "deletions": 0, "changes": 0}` creates only the
three counter keys; `none` in `line_changes` / `class_method_changes` means
the key is absent from the dictionary, so that accessing it raises
`KeyError`. -/
structure FileStats where
  additions : Nat
  deletions : Nat
  changes : Nat
  line_changes : Option (List ChangeInfo)
  class_method_changes : Option (List CMChangeInfo)
deriving DecidableEq

/-- The value produced by the `defaultdict` initializer lambda. -/
def defaultStats : FileStats :=
  { additions := 0, deletions := 0, changes := 0
  , line_changes := none, class_method_changes := none }

/-- `file_stats` is a Python dict keyed by `current_file` (which can be the
Python value `None`), in insertion order. -/
abbrev StatsDict := List (Option PyStr × FileStats)

/-- `defaultdict` access-and-update: `file_stats[k]` inserts the default
value at the end when the key is missing, then the entry is updated in
place by `f`. -/
def updStats (m : StatsDict) (k : Option PyStr) (f : FileStats → FileStats) :
    StatsDict :=
  match m with
  | [] => [(k, f defaultStats)]
  | (k', v) :: rest =>
    if k = k' then (k', f v) :: rest else (k', v) :: updStats rest k f

/-- `defaultdict` access-and-update where the update itself can raise
(used for the `["line_changes"].append(...)` accesses). -/
def updStatsE (m : StatsDict) (k : Option PyStr)
    (f : FileStats → Except PyErr FileStats) : Except PyErr StatsDict :=
  match m with
  | [] => (f defaultStats).map (fun v => [(k, v)])
  | (k', v) :: rest =>
    if k = k' then (f v).map (fun v' => (k', v') :: rest)
    else (updStatsE rest k f).map (fun r => (k', v) :: r)

/-- `file_stats[f]["line_changes"].append(c)`: raises
`KeyError('line_changes')` because the initializer never creates the key. -/
def appendLineChange (st : FileStats) (c : ChangeInfo) : Except PyErr FileStats :=
  match st.line_changes with
  | none => .error (.keyError (pstr "line_changes"))
  | some xs => .ok { st with line_changes := some (xs ++ [c]) }

/-- `file_stats[f]["class_method_changes"].append(c)`, same `KeyError`
situation. -/
def appendCMChange (st : FileStats) (c : CMChangeInfo) : Except PyErr FileStats :=
  match st.class_method_changes with
  | none => .error (.keyError (pstr "class_method_changes"))
  | some xs => .ok { st with class_method_changes := some (xs ++ [c]) }

/-- Python truthiness of `current_class` / `current_method`: `None` and the
empty string are falsy. -/
def isTruthy : Option PyStr → Bool
  | none => false
  | some s => !s.isEmpty

/-- Python `x or d` for an optional string `x`. -/
def pyOrStr (o : Option PyStr) (d : PyStr) : PyStr :=
  match o with
  | none => d
  | some s => if s.isEmpty then d else s

/-- The f-string key `f"{current_class or 'Unknown'}::{current_method or 'global'}"`. -/
def cmKey (c m : Option PyStr) : PyStr :=
  pyOrStr c (pstr "Unknown") ++ pstr "::" ++ pyOrStr m (pstr "global")

/-!
Line classification: the guards of the `if`/`elif` chain of both loops.
-/

/-- Guard of the file-header branch: `line.startswith("diff --git")`. -/
def isFileHeaderLine (l : PyStr) : Bool := pyStartswith (pstr "diff --git") l

/-- Guard of the hunk-header branch: `line.startswith("@@")`. -/
def isHunkHeaderLine (l : PyStr) : Bool := pyStartswith (pstr "@@") l

/-- Guard of the addition branch:
`line.startswith("+") and not line.startswith("+++")`. -/
def isAdditionLine (l : PyStr) : Bool :=
  pyStartswith (pstr "+") l && !pyStartswith (pstr "+++") l

/-- Guard of the deletion branch:
`line.startswith("-") and not line.startswith("---")`. -/
def isDeletionLine (l : PyStr) : Bool :=
  pyStartswith (pstr "-") l && !pyStartswith (pstr "---") l

/-- Guard of the context branch: `not line.startswith("+") and not
line.startswith("-") and not line.startswith("diff") and not
line.startswith("@@")`.  Note the bare `"diff"` pattern, unlike the
file-header guard's `"diff --git"`. -/
def isContextLine (l : PyStr) : Bool :=
  !pyStartswith (pstr "+") l && !pyStartswith (pstr "-") l &&
  !pyStartswith (pstr "diff") l && !pyStartswith (pstr "@@") l

/-- `line.split(" b/")[-1]`, the file path extracted from a file header
(`pySplit` results are never empty, so Python's `[-1]` cannot fail). -/
def extractFilePath (l : PyStr) : PyStr := (pySplit (pstr " b/") l).getLastD []

/-- `ctx_line.split("class ")[1].split("(")[0].split(":")[0].strip()`,
evaluated only under the guard `"class " in ctx_line and ":" in ctx_line`. -/
def extractClassName (l : PyStr) : PyStr :=
  pyStrip (firstPart (pstr ":") (firstPart (pstr "(") (part1 (pstr "class ") l)))

/-- `line.split("def ")[1].split("(")[0].strip()`, evaluated only under the
guard `"def " in line and ":" in line`. -/
def extractMethodName (l : PyStr) : PyStr :=
  pyStrip (firstPart (pstr "(") (part1 (pstr "def ") l))

/-- The class-definition heuristic `"class " in l and ":" in l`. -/
def hasClassPattern (l : PyStr) : Bool :=
  pyContains (pstr "class ") l && pyContains (pstr ":") l

/-- The method-definition heuristic `"def " in l and ":" in l`. -/
def hasDefPattern (l : PyStr) : Bool :=
  pyContains (pstr "def ") l && pyContains (pstr ":") l

/-!
The first (counting) loop, lines 49-59 of the script — identical in
`repo_vul_files.py` (lines 49-59) and the deprecated variant.
-/

/-- State of the first loop: the stats dictionary and `current_file`. -/
structure CountState where
  file_stats : StatsDict
  current_file : Option PyStr
deriving DecidableEq

/-- `["additions"] += 1` on a per-file stats dict. -/
def incAdditions (s : FileStats) : FileStats := { s with additions := s.additions + 1 }

/-- `["deletions"] += 1` on a per-file stats dict. -/
def incDeletions (s : FileStats) : FileStats := { s with deletions := s.deletions + 1 }

/-- `["changes"] += 1` on a per-file stats dict. -/
def incChanges (s : FileStats) : FileStats := { s with changes := s.changes + 1 }

/-- The statement pair `file_stats[k]["additions"] += 1;
file_stats[k]["changes"] += 1`. -/
def bumpAddition (m : StatsDict) (k : Option PyStr) : StatsDict :=
  updStats (updStats m k incAdditions) k incChanges

/-- The statement pair `file_stats[k]["deletions"] += 1;
file_stats[k]["changes"] += 1`. -/
def bumpDeletion (m : StatsDict) (k : Option PyStr) : StatsDict :=
  updStats (updStats m k incDeletions) k incChanges

/-- One iteration of the first loop. -/
def countStep (st : CountState) (line : PyStr) : CountState :=
  if isFileHeaderLine line then
    { st with current_file := some (extractFilePath line) }
  else if isAdditionLine line then
    { st with file_stats := bumpAddition st.file_stats st.current_file }
  else if isDeletionLine line then
    { st with file_stats := bumpDeletion st.file_stats st.current_file }
  else st

/-!
The second loop, lines 87-205 of the script.  The Python `while` loop walks
an index `i` over `lines` and, at a hunk header, looks ahead at
`lines[i+1] .. lines[i+19]` (the guard is `context_index < i + 20` with
`context_index` starting at `i + 1`) without moving `i`.  The embedding
recurses over the list of lines, so at each step the remaining tail `rest`
equals `lines[i+1:]` and the lookahead window is `rest.take 19`. -/

/-- State of the second loop (lines 81-85 of the script).  `old_line_num`
is kept as a Python `int` (the script applies `abs` to it, but `new_line_num`
takes the parsed value unchanged and may be negative). -/
structure ScanState where
  file_stats : StatsDict
  current_file : Option PyStr
  current_class : Option PyStr
  current_method : Option PyStr
  old_line_num : Option Int
  new_line_num : Option Int
deriving DecidableEq

/-- Lines 101-108: `line_info = line.split("@@")[1].strip()`,
`line_numbers = line_info.split(" ")`, `old_range = line_numbers[0]`,
`new_range = line_numbers[1]`, then `int(old_range.split(",")[0])` and
`int(new_range.split(",")[0])` (the `abs` of the old value is applied by the
caller, as in the source).  `IndexError` and `ValueError` propagate. -/
def parseHunkNums (line : PyStr) : Except PyErr (Int × Int) := do
  let seg ← pyIdx (pySplit (pstr "@@") line) 1
  let line_info := pyStrip seg
  let line_numbers := pySplit (pstr " ") line_info
  let old_range ← pyIdx line_numbers 0
  let new_range ← pyIdx line_numbers 1
  let o ← pyInt (firstPart (pstr ",") old_range)
  let n ← pyInt (firstPart (pstr ",") new_range)
  return (o, n)

/-- Lines 114-128: collect `context_lines` from the next 19 lines
(`lines[i+1] .. lines[i+19]`), keeping only lines that start with neither
`"+"` nor `"-"`, then run the `for ctx_line in context_lines` loop, which
overwrites `current_class` at every line matching the class heuristic
(starting from the `None` set at line 111). -/
def lookaheadClass (rest : List PyStr) : Option PyStr :=
  let context_lines :=
    (rest.take 19).filter
      (fun cl => !pyStartswith (pstr "+") cl && !pyStartswith (pstr "-") cl)
  context_lines.foldl
    (fun acc cl => if hasClassPattern cl then some (extractClassName cl) else acc)
    none

/-- Lines 107-112: set the cursors from the parsed hunk numbers
(`old_line_num = abs(...)`) and reset the class/method context. -/
def hunkResetState (st : ScanState) (o n : Int) : ScanState :=
  { st with old_line_num := some ((o.natAbs : Nat) : Int)
          , new_line_num := some n
          , current_class := none
          , current_method := none }

/-- The whole hunk-header branch (lines 100-128). -/
def hunkStep (line : PyStr) (rest : List PyStr) (st : ScanState) :
    Except PyErr ScanState :=
  (parseHunkNums line).bind fun p =>
    .ok { hunkResetState st p.1 p.2 with current_class := lookaheadClass rest }

/-- The addition branch (lines 131-158).  Counters are bumped first (they
exist in the dict, so this cannot raise); only when `new_line_num` is set is
a `change_info` record appended — which raises `KeyError('line_changes')`
when the key is absent — followed by the class/method-keyed append and the
cursor increment. -/
def additionStep (line : PyStr) (st : ScanState) : Except PyErr ScanState :=
  let m2 := bumpAddition st.file_stats st.current_file
  match st.new_line_num with
  | none => .ok { st with file_stats := m2 }
  | some n =>
    let info : ChangeInfo :=
      ⟨pstr "addition", n, line.drop 1, st.current_class, st.current_method⟩
    (updStatsE m2 st.current_file (fun s => appendLineChange s info)).bind fun m3 =>
      (if isTruthy st.current_class || isTruthy st.current_method then
        updStatsE m3 st.current_file (fun s => appendCMChange s
          ⟨st.current_class, st.current_method,
           cmKey st.current_class st.current_method,
           n, pstr "addition", line.drop 1⟩)
      else .ok m3).bind fun m4 =>
        .ok { st with file_stats := m4, new_line_num := some (n + 1) }

/-- The deletion branch (lines 160-187), symmetric to the addition branch
with the pre-image cursor. -/
def deletionStep (line : PyStr) (st : ScanState) : Except PyErr ScanState :=
  let m2 := bumpDeletion st.file_stats st.current_file
  match st.old_line_num with
  | none => .ok { st with file_stats := m2 }
  | some n =>
    let info : ChangeInfo :=
      ⟨pstr "deletion", n, line.drop 1, st.current_class, st.current_method⟩
    (updStatsE m2 st.current_file (fun s => appendLineChange s info)).bind fun m3 =>
      (if isTruthy st.current_class || isTruthy st.current_method then
        updStatsE m3 st.current_file (fun s => appendCMChange s
          ⟨st.current_class, st.current_method,
           cmKey st.current_class st.current_method,
           n, pstr "deletion", line.drop 1⟩)
      else .ok m3).bind fun m4 =>
        .ok { st with file_stats := m4, old_line_num := some (n + 1) }

/-- The context branch (lines 190-203): advance both cursors when set, then
update `current_class` / `current_method` from the line itself. -/
def contextStep (line : PyStr) (st : ScanState) : ScanState :=
  let st1 := { st with old_line_num := st.old_line_num.map (· + 1)
                     , new_line_num := st.new_line_num.map (· + 1) }
  let st2 :=
    if hasClassPattern line then
      { st1 with current_class := some (extractClassName line) }
    else st1
  if hasDefPattern line then
    { st2 with current_method := some (extractMethodName line) }
  else st2

/-- One iteration of the second loop: the `if`/`elif` chain on `line`, with
`rest` the lines after it (used only by the hunk lookahead).  A line that
matches no guard — one starting with `"+++"`, `"---"`, or with `"diff"` but
not `"diff --git"` — leaves the state unchanged. -/
def scanStep (line : PyStr) (rest : List PyStr) (st : ScanState) :
    Except PyErr ScanState :=
  if isFileHeaderLine line then
    .ok { st with current_file := some (extractFilePath line)
                , current_class := none
                , current_method := none }
  else if isHunkHeaderLine line then
    hunkStep line rest st
  else if isAdditionLine line then
    additionStep line st
  else if isDeletionLine line then
    deletionStep line st
  else if isContextLine line then
    .ok (contextStep line st)
  else
    .ok st

/-- The `while i < len(lines)` loop. -/
def scanLines : List PyStr → ScanState → Except PyErr ScanState
  | [], st => .ok st
  | line :: rest, st =>
    match scanStep line rest st with
    | .error e => .error e
    | .ok st' => scanLines rest st'

/-- The second loop's initial state (lines 81-85): `current_file`,
`current_class`, `current_method`, `old_line_num`, `new_line_num` all reset
to `None`, while `file_stats` carries over the dictionary populated by the
first loop. -/
def initialScanState (fs : StatsDict) : ScanState := ⟨fs, none, none, none, none, none⟩

/-- The result dictionary (lines 210-217) or the error dictionary returned
by the blanket `except` handlers (lines 221-226). -/
inductive AnalysisResult where
  | ok (files : StatsDict) (files_list : List PyStr)
       (diff_summary : PyStr) (full_diff : PyStr)
  | error (e : PyErr)

/-- The pure core of `analyze_commit_changes` (lines 27-226), taking the
standard-output strings of the three relevant `git` subprocesses as inputs:
`diff-tree --name-only` output, `diff --stat` output, and the full `diff`
output.  It derives `files_changed = stdout.strip().split("\n")` and
`stats_summary = stdout.strip()`, runs the two parsing loops over
`diff_output.split("\n")`, and assembles the result; any exception raised by
the loops is caught by the blanket handler and surfaced as an error value. -/
def analyze_commit_changes (diff_tree_stdout stats_stdout diff_stdout : PyStr) :
    AnalysisResult :=
  let files_changed := pySplit (pstr "\n") (pyStrip diff_tree_stdout)
  let stats_summary := pyStrip stats_stdout
  let lines := pySplit (pstr "\n") diff_stdout
  let countSt := lines.foldl countStep ⟨[], none⟩
  match scanLines lines (initialScanState countSt.file_stats) with
  | .error e => .error e
  | .ok st => .ok st.file_stats files_changed stats_summary diff_stdout

/-- Modelled from the spec's wording for the file-header path extraction
(claim C9): "the substring of the line following the last occurrence of the
token `\" b/\"`; if the header line contains no `\" b/\"` occurrence at all
... the entire header line text".  `occPos` lists all occurrence
positions in ascending order, so `getLast?` is the rightmost occurrence. -/
def afterLastOcc (sep l : PyStr) : PyStr :=
  match (occPos sep l).getLast? with
  | none => l
  | some p => l.drop (p + sep.length)

/-- Where the final piece of `cutAt l k ps s` starts: after the last cut
position plus the separator length (or at `s` when there are no cuts). -/
def lastStop (k : Nat) : List Nat → Nat → Nat
  | [], s => s
  | p :: ps, _ => lastStop k ps (p + k)

/-!
Helper lemmas about the string primitives.
-/

theorem pyStartswith_append (p q l : PyStr)
    (h : pyStartswith (p ++ q) l = true) : pyStartswith p l = true := by
  induction p generalizing l with
  | nil => rfl
  | cons a as ih =>
    cases l with
    | nil => simp [pyStartswith] at h
    | cons c cs =>
      simp only [List.cons_append, pyStartswith] at h ⊢
      by_cases hac : a = c
      · simp only [if_pos hac] at h ⊢
        exact ih cs h
      · simp [if_neg hac] at h

theorem pyStartswith_cons_ex {c : Char} {p l : PyStr}
    (h : pyStartswith (c :: p) l = true) :
    ∃ t, l = c :: t ∧ pyStartswith p t = true := by
  cases l with
  | nil => simp [pyStartswith] at h
  | cons d t =>
    simp only [pyStartswith] at h
    by_cases hdc : c = d
    · subst hdc; exact ⟨t, rfl, by simpa using h⟩
    · simp [if_neg hdc] at h

/-- Two patterns with different head characters cannot both match. -/
theorem sw_head_clash {c d : Char} {p q l : PyStr} (hne : d ≠ c)
    (h : pyStartswith (c :: p) l = true) : pyStartswith (d :: q) l = false := by
  obtain ⟨t, rfl, -⟩ := pyStartswith_cons_ex h
  simp [pyStartswith, if_neg hne]

theorem sw_plus_of_sw_plus3 (l : PyStr) (h : pyStartswith (pstr "+++") l = true) :
    pyStartswith (pstr "+") l = true :=
  pyStartswith_append (pstr "+") (pstr "++") l
    ((show pstr "+" ++ pstr "++" = pstr "+++" from rfl) ▸ h)

theorem sw_minus_of_sw_minus3 (l : PyStr) (h : pyStartswith (pstr "---") l = true) :
    pyStartswith (pstr "-") l = true :=
  pyStartswith_append (pstr "-") (pstr "--") l
    ((show pstr "-" ++ pstr "--" = pstr "---" from rfl) ▸ h)

theorem sw_diff_of_fileHeader (l : PyStr) (h : isFileHeaderLine l = true) :
    pyStartswith (pstr "diff") l = true :=
  pyStartswith_append (pstr "diff") (pstr " --git") l
    ((show pstr "diff" ++ pstr " --git" = pstr "diff --git" from rfl) ▸ h)

theorem sw_minus_of_sw_plus (l : PyStr) (h : pyStartswith (pstr "+") l = true) :
    pyStartswith (pstr "-") l = false :=
  sw_head_clash (q := pstr "") (by decide) ((show pstr "+" = ['+'] from rfl) ▸ h)

theorem sw_diff_of_sw_plus (l : PyStr) (h : pyStartswith (pstr "+") l = true) :
    pyStartswith (pstr "diff") l = false :=
  sw_head_clash (q := pstr "iff") (by decide) ((show pstr "+" = ['+'] from rfl) ▸ h)

theorem sw_at_of_sw_plus (l : PyStr) (h : pyStartswith (pstr "+") l = true) :
    pyStartswith (pstr "@@") l = false :=
  sw_head_clash (q := pstr "@") (by decide) ((show pstr "+" = ['+'] from rfl) ▸ h)

theorem sw_plus_of_sw_minus (l : PyStr) (h : pyStartswith (pstr "-") l = true) :
    pyStartswith (pstr "+") l = false :=
  sw_head_clash (q := pstr "") (by decide) ((show pstr "-" = ['-'] from rfl) ▸ h)

theorem sw_diff_of_sw_minus (l : PyStr) (h : pyStartswith (pstr "-") l = true) :
    pyStartswith (pstr "diff") l = false :=
  sw_head_clash (q := pstr "iff") (by decide) ((show pstr "-" = ['-'] from rfl) ▸ h)

theorem sw_at_of_sw_minus (l : PyStr) (h : pyStartswith (pstr "-") l = true) :
    pyStartswith (pstr "@@") l = false :=
  sw_head_clash (q := pstr "@") (by decide) ((show pstr "-" = ['-'] from rfl) ▸ h)

theorem fileHeader_of_hunkHeader (l : PyStr) (h : isHunkHeaderLine l = true) :
    isFileHeaderLine l = false :=
  show pyStartswith ('d' :: pstr "iff --git") l = false from
    sw_head_clash (by decide) (show pyStartswith ('@' :: pstr "@") l = true from h)

theorem fileHeader_of_sw_plus (l : PyStr) (h : pyStartswith (pstr "+") l = true) :
    isFileHeaderLine l = false :=
  show pyStartswith ('d' :: pstr "iff --git") l = false from
    sw_head_clash (by decide) (show pyStartswith ('+' :: pstr "") l = true from h)

theorem fileHeader_of_sw_minus (l : PyStr) (h : pyStartswith (pstr "-") l = true) :
    isFileHeaderLine l = false :=
  show pyStartswith ('d' :: pstr "iff --git") l = false from
    sw_head_clash (by decide) (show pyStartswith ('-' :: pstr "") l = true from h)

theorem foldl_overwrite_getLast (p : PyStr → Bool) (f : PyStr → PyStr)
    (xs : List PyStr) (a : Option PyStr) :
    xs.foldl (fun acc cl => if p cl then some (f cl) else acc) a
      = match (xs.filter p).getLast? with
        | some y => some (f y)
        | none => a := by
  induction xs using List.reverseRecOn with
  | nil => rfl
  | append_singleton xs x ih =>
    rw [List.foldl_append, List.filter_append]
    cases hp : p x with
    | true => simp [hp, List.filter_cons, List.getLast?_concat]
    | false =>
      simp only [List.foldl, hp, List.filter_cons, if_neg (Bool.false_ne_true), ite_false,
        List.filter_nil, List.append_nil]
      exact ih

theorem cutAt_ne_nil (l : PyStr) (k : Nat) (ps : List Nat) (s : Nat) :
    cutAt l k ps s ≠ [] := by
  cases ps <;> simp [cutAt]

theorem cutAt_getLast? (l : PyStr) (k : Nat) (ps : List Nat) (s : Nat) :
    (cutAt l k ps s).getLast? = some (l.drop (lastStop k ps s)) := by
  induction ps generalizing s with
  | nil => rfl
  | cons p ps ih =>
    rw [show cutAt l k (p :: ps) s
        = (l.drop s).take (p - s) :: cutAt l k ps (p + k) from rfl]
    rw [show lastStop k (p :: ps) s = lastStop k ps (p + k) from rfl]
    rw [← ih (p + k)]
    cases hc : cutAt l k ps (p + k) with
    | nil => exact absurd hc (cutAt_ne_nil l k ps (p + k))
    | cons y ys => rw [List.getLast?_cons_cons]

theorem lastStop_eq_getLast? (k : Nat) (ps : List Nat) (s : Nat) :
    lastStop k ps s = match ps.getLast? with
      | none => s
      | some p => p + k := by
  induction ps generalizing s with
  | nil => rfl
  | cons p ps ih =>
    rw [show lastStop k (p :: ps) s = lastStop k ps (p + k) from rfl, ih]
    rw [List.getLast?_cons]
    cases hc : ps.getLast? with
    | none => rfl
    | some q => rfl

theorem greedySel_eq_self (k : Nat) (ps : List Nat) (m : Nat)
    (hp : ps.Pairwise (fun a b => a + k ≤ b)) (hm : ∀ p ∈ ps, m ≤ p) :
    greedySel k ps m = ps := by
  induction ps generalizing m with
  | nil => rfl
  | cons p ps ih =>
    have h1 : ¬ p < m := Nat.not_lt.mpr (hm p (List.mem_cons_self p ps))
    rw [show greedySel k (p :: ps) m
        = if p < m then greedySel k ps m else p :: greedySel k ps (p + k) from rfl]
    rw [if_neg h1]
    have hcons := List.pairwise_cons.mp hp
    rw [ih (p + k) hcons.2 hcons.1]

theorem occPos_mem_sw {sep l : PyStr} {i : Nat} (h : i ∈ occPos sep l) :
    pyStartswith sep (l.drop i) = true := by
  simpa [occPos, List.mem_filter] using (List.mem_filter.mp h).2

theorem sw_drop_getElem {x : Char} {xs : PyStr} {l : PyStr} {i : Nat}
    (h : pyStartswith (x :: xs) (l.drop i) = true) :
    l[i]? = some x ∧ pyStartswith xs (l.drop (i + 1)) = true := by
  obtain ⟨t, ht, hx⟩ := pyStartswith_cons_ex h
  constructor
  · have h0 : (l.drop i)[0]? = some x := by rw [ht]; simp
    rw [List.getElem?_drop] at h0
    simpa using h0
  · have h1 : l.drop (i + 1) = t := by
      rw [← List.drop_drop 1 i l, ht]
      rfl
    rw [h1]; exact hx

theorem occPos_gap_b (l : PyStr) :
    (occPos (pstr " b/") l).Pairwise (fun a b => a + 3 ≤ b) := by
  have hp : (occPos (pstr " b/") l).Pairwise (· < ·) :=
    (List.pairwise_lt_range (l.length + 1)).filter _
  refine hp.imp_of_mem (fun {a b} ha hb hab => ?_)
  have hsa := occPos_mem_sw ha
  have hsb := occPos_mem_sw hb
  obtain ⟨ha1, ha2⟩ :=
    sw_drop_getElem (show pyStartswith (' ' :: pstr "b/") (l.drop a) = true from hsa)
  obtain ⟨ha3, ha4⟩ :=
    sw_drop_getElem (show pyStartswith ('b' :: pstr "/") (l.drop (a + 1)) = true from ha2)
  obtain ⟨ha5, -⟩ :=
    sw_drop_getElem (show pyStartswith ('/' :: pstr "") (l.drop (a + 2)) = true from ha4)
  obtain ⟨hb1, -⟩ :=
    sw_drop_getElem (show pyStartswith (' ' :: pstr "b/") (l.drop b) = true from hsb)
  rcases Nat.lt_or_ge b (a + 3) with hlt | hge
  · have hcases : b = a + 1 ∨ b = a + 2 := by omega
    rcases hcases with rfl | rfl
    · rw [ha3] at hb1; exact absurd hb1 (by decide)
    · rw [ha5] at hb1; exact absurd hb1 (by decide)
  · exact hge

theorem extractFilePath_eq_afterLastOcc (l : PyStr) :
    extractFilePath l = afterLastOcc (pstr " b/") l := by
  unfold extractFilePath pySplit afterLastOcc
  have hsel : greedySel (pstr " b/").length (occPos (pstr " b/") l) 0
      = occPos (pstr " b/") l := by
    rw [show (pstr " b/").length = 3 from rfl]
    exact greedySel_eq_self 3 _ 0 (occPos_gap_b l) (fun p _ => Nat.zero_le p)
  rw [hsel, List.getLastD_eq_getLast?, cutAt_getLast?, Option.getD_some,
    lastStop_eq_getLast?]
  cases hc : (occPos (pstr " b/") l).getLast? with
  | none => simp
  | some p => rfl

theorem pyContains_iff_ex (needle l : PyStr) :
    pyContains needle l = true ↔ ∃ i, pyStartswith needle (l.drop i) = true := by
  induction l with
  | nil =>
    constructor
    · intro h; exact ⟨0, h⟩
    · rintro ⟨i, hi⟩
      rw [show pyContains needle [] = pyStartswith needle [] from rfl]
      rw [List.drop_nil] at hi
      exact hi
  | cons c t ih =>
    rw [show pyContains needle (c :: t)
        = (pyStartswith needle (c :: t) || pyContains needle t) from rfl]
    rw [Bool.or_eq_true, ih]
    constructor
    · rintro (h | ⟨i, hi⟩)
      · exact ⟨0, h⟩
      · exact ⟨i + 1, hi⟩
    · rintro ⟨i, hi⟩
      cases i with
      | zero => exact Or.inl hi
      | succ j => exact Or.inr ⟨j, hi⟩

theorem occPos_eq_nil_of_not_contains {sep l : PyStr}
    (h : pyContains sep l = false) : occPos sep l = [] := by
  rw [occPos, List.filter_eq_nil_iff]
  intro i hi
  intro hsw
  have : pyContains sep l = true := (pyContains_iff_ex sep l).mpr ⟨i, hsw⟩
  rw [this] at h
  exact absurd h (by decide)

theorem afterLastOcc_of_not_contains {sep l : PyStr}
    (h : pyContains sep l = false) : afterLastOcc sep l = l := by
  rw [afterLastOcc, occPos_eq_nil_of_not_contains h]
  rfl

/-!
Claim theorems.
-/

/-- C1: the spec's six-line scenario DiffText is claimed to yield a `foo.py`
summary with additions=1, deletions=1, changes=2 and recorded
addition/deletion changes.  On the code as written the scenario instead
raises `KeyError('line_changes')` at the first `+` body line — the
`defaultdict` initializer creates only the three counter keys — and the
function returns the error dictionary of its blanket handler, producing no
summary at all. -/
theorem c1_scenario_raises_keyError :
    analyze_commit_changes [] []
      (pstr "diff --git a/foo.py b/foo.py\n@@ -1,3 +1,4 @@\n class Foo:\n+    def bar(self): pass\n \n-    pass")
      = .error (.keyError (pstr "line_changes")) := rfl

/-- C2: the claim asserts `additions + deletions == changes` and that the
counters equal the number of recorded LineChange entries of each kind.  On
the single-line DiffText `"+x"` the code succeeds (the cursor is unset, so
the recording block is skipped) and returns a summary whose counters are
additions=2, deletions=0, changes=2 — the `+` line is counted by both loops
— while the `line_changes` key does not exist at all (zero recorded
entries), so the counters do not equal the recorded-entry counts. -/
theorem c2_counters_without_recorded_changes :
    analyze_commit_changes [] [] (pstr "+x")
      = .ok [(none, ⟨2, 0, 2, none, none⟩)] [[]] [] (pstr "+x") := rfl

/-- C3 counterexample: the claim says the lookahead window spans up to 20
subsequent lines and that the *first* class-definition match determines
`enclosingClass`.  With two class lines `" class A:"` then `" class B:"` in
the window the code yields `B` (the last match), not `A`; and a class line
placed as the 20th subsequent line (after 19 fillers) is outside the window,
yielding no class at all. -/
theorem c3_lookahead_counterexample :
    lookaheadClass [pstr " class A:", pstr " class B:"] = some (pstr "B")
    ∧ lookaheadClass (List.replicate 19 (pstr " x") ++ [pstr " class A:"]) = none :=
  ⟨rfl, rfl⟩

/-- C3 amended: at every HunkHeader line, after clearing `enclosingClass`,
the classifier looks ahead over at most the 19 following lines, keeps only
lines starting with neither `+` nor `-`, and the *last* line matching the
class heuristic determines `enclosingClass` (none if no match); the
lookahead affects nothing but `current_class` — cursors and scan position
are untouched (the hunk step's result is independent of the following lines
except for its `current_class` field). -/
theorem c3_lookahead_amended :
    (∀ rest : List PyStr,
      lookaheadClass rest
        = (((rest.take 19).filter
              (fun cl => !pyStartswith (pstr "+") cl && !pyStartswith (pstr "-") cl)).filter
            hasClassPattern).getLast?.map extractClassName)
    ∧ (∀ (line : PyStr) (st : ScanState) (r1 r2 : List PyStr),
        Except.map (fun s => { s with current_class := none }) (hunkStep line r1 st)
          = Except.map (fun s => { s with current_class := none }) (hunkStep line r2 st)) := by
  constructor
  · intro rest
    rw [lookaheadClass, foldl_overwrite_getLast]
    cases hc : (((rest.take 19).filter
        (fun cl => !pyStartswith (pstr "+") cl && !pyStartswith (pstr "-") cl)).filter
        hasClassPattern).getLast? with
    | none => rfl
    | some y => rfl
  · intro line st r1 r2
    rw [hunkStep, hunkStep]
    cases hp : parseHunkNums line with
    | error e => rfl
    | ok p => simp [Except.map, Except.bind]

/-- C4 counterexample: the claim demands that *every* DiffText containing a
non-numeric hunk header fail with a ParseError identifying that hunk line.
In this DiffText the malformed hunk is preceded by a well-formed hunk and an
addition line, so the run dies earlier with `KeyError('line_changes')` — an
error that is not a parse error and carries nothing of the hunk line. -/
theorem c4_malformed_hunk_counterexample :
    analyze_commit_changes [] [] (pstr "@@ -1,1 +1,1 @@\n+x\n@@ -a,b +1,1 @@")
      = .error (.keyError (pstr "line_changes")) := rfl

/-- C4 amended: when the scan reaches the malformed hunk header
`@@ -a,b +1,1 @@` (in particular when no earlier line raises), the step
raises `ValueError` carrying the offending non-numeric range token `-a` (a
fragment of the hunk line, not the whole line), regardless of the
surrounding lines and state; the blanket handler returns it to the caller
as an error result, so the malformed hunk is not silently dropped. -/
theorem c4_malformed_hunk_amended :
    parseHunkNums (pstr "@@ -a,b +1,1 @@") = .error (.valueError (pstr "-a"))
    ∧ (∀ (rest : List PyStr) (st : ScanState),
        scanStep (pstr "@@ -a,b +1,1 @@") rest st = .error (.valueError (pstr "-a")))
    ∧ analyze_commit_changes [] [] (pstr "@@ -a,b +1,1 @@")
        = .error (.valueError (pstr "-a")) :=
  ⟨rfl, fun _ _ => rfl, rfl⟩

/-- C5: on a HunkHeader line whose ranges parse to first numbers `o` (pre-
image) and `n` (post-image), the step sets `oldCursor` to the absolute
value of `o` and `newCursor` to `n`; and the length-free header
`@@ -10 +10 @@` parses to (-10, 10) — hence cursors 10 and 10 — with no
error. -/
theorem c5_hunk_cursor_semantics :
    (∀ (line : PyStr) (rest : List PyStr) (st : ScanState) (o n : Int),
      isHunkHeaderLine line = true →
      parseHunkNums line = .ok (o, n) →
      Except.map (fun s => (s.old_line_num, s.new_line_num)) (scanStep line rest st)
        = .ok (some ((o.natAbs : Nat) : Int), some n))
    ∧ parseHunkNums (pstr "@@ -10 +10 @@") = .ok (-10, 10) := by
  refine ⟨fun line rest st o n hh hp => ?_, rfl⟩
  simp [scanStep, fileHeader_of_hunkHeader line hh, hh, hunkStep, hp,
    Except.map, Except.bind, hunkResetState]

/-- C5 witness: the length-free hunk header scenario evaluated. -/
theorem c5_hunk_cursor_semantics_witness :
    Except.map (fun s => (s.old_line_num, s.new_line_num))
      (scanStep (pstr "@@ -10 +10 @@") [] (initialScanState []))
      = .ok (some 10, some 10) :=
  c5_hunk_cursor_semantics.1 (pstr "@@ -10 +10 @@") [] (initialScanState [])
    (-10) 10 (by decide) c5_hunk_cursor_semantics.2

/-- C6: immediately after processing a FileHeader line both `current_class`
and `current_method` are `None`; at a HunkHeader line the step factors
through `hunkResetState` — whose `current_class`/`current_method` are `None`
— before the lookahead result is written into `current_class`. -/
theorem c6_context_reset :
    (∀ (line : PyStr) (rest : List PyStr) (st : ScanState),
      isFileHeaderLine line = true →
      Except.map (fun s => (s.current_class, s.current_method)) (scanStep line rest st)
        = .ok (none, none))
    ∧ (∀ (st : ScanState) (o n : Int),
        (hunkResetState st o n).current_class = none
        ∧ (hunkResetState st o n).current_method = none)
    ∧ (∀ (line : PyStr) (rest : List PyStr) (st : ScanState),
        isHunkHeaderLine line = true →
        scanStep line rest st = (parseHunkNums line).bind (fun p =>
          .ok { hunkResetState st p.1 p.2 with current_class := lookaheadClass rest })) := by
  refine ⟨fun line rest st hf => ?_, fun st o n => ⟨rfl, rfl⟩,
    fun line rest st hh => ?_⟩
  · simp [scanStep, hf, Except.map]
  · simp [scanStep, fileHeader_of_hunkHeader line hh, hh, hunkStep]

/-- C6 witness: the reset facts evaluated at a concrete FileHeader line and
a concrete HunkHeader line. -/
theorem c6_context_reset_witness :
    Except.map (fun s => (s.current_class, s.current_method))
      (scanStep (pstr "diff --git a/x b/x") [] (initialScanState []))
      = .ok (none, none)
    ∧ scanStep (pstr "@@ -1 +1 @@") [] (initialScanState [])
        = (parseHunkNums (pstr "@@ -1 +1 @@")).bind (fun p =>
            .ok { hunkResetState (initialScanState []) p.1 p.2 with
                    current_class := lookaheadClass [] }) :=
  ⟨c6_context_reset.1 _ [] _ (by decide), c6_context_reset.2.2 _ [] _ (by decide)⟩

/-- C7 counterexample: the claim says every line that is neither a
FileHeader nor a HunkHeader receives exactly one of the three
classifications.  The line `+++ b/foo.py` is neither header, yet it matches
none of the addition / deletion / context guards — the classifier skips it
entirely. -/
theorem c7_classification_counterexample :
    isFileHeaderLine (pstr "+++ b/foo.py") = false
    ∧ isHunkHeaderLine (pstr "+++ b/foo.py") = false
    ∧ isAdditionLine (pstr "+++ b/foo.py") = false
    ∧ isDeletionLine (pstr "+++ b/foo.py") = false
    ∧ isContextLine (pstr "+++ b/foo.py") = false := by decide

/-- C7 amended: the three classifications are pairwise mutually exclusive
on every line; and a non-header line receives exactly one of them if and
only if it does not start with `+++`, `---`, or `diff` — lines with those
prefixes (the `+++`/`---` file-boundary lines and non-`diff --git` lines
starting with `diff`) receive no classification at all. -/
theorem c7_classification_amended (l : PyStr) :
    (¬ (isAdditionLine l = true ∧ isDeletionLine l = true) ∧
     ¬ (isAdditionLine l = true ∧ isContextLine l = true) ∧
     ¬ (isDeletionLine l = true ∧ isContextLine l = true)) ∧
    (isFileHeaderLine l = false → isHunkHeaderLine l = false →
      (((isAdditionLine l || isDeletionLine l) || isContextLine l) = true ↔
        ((pyStartswith (pstr "+++") l || pyStartswith (pstr "---") l) ||
          pyStartswith (pstr "diff") l) = false)) := by
  cases h1 : pyStartswith (pstr "+") l with
  | true =>
    have hm : pyStartswith (pstr "-") l = false := sw_minus_of_sw_plus l h1
    have hd : pyStartswith (pstr "diff") l = false := sw_diff_of_sw_plus l h1
    have hat : pyStartswith (pstr "@@") l = false := sw_at_of_sw_plus l h1
    have hm3 : pyStartswith (pstr "---") l = false := by
      cases hx : pyStartswith (pstr "---") l with
      | false => rfl
      | true => exact absurd (sw_minus_of_sw_minus3 l hx) (by simp [hm])
    refine ⟨⟨?_, ?_, ?_⟩, fun _ _ => ?_⟩ <;>
      simp [isAdditionLine, isDeletionLine, isContextLine, h1, hm, hd, hat, hm3]
  | false =>
    have hp3 : pyStartswith (pstr "+++") l = false := by
      cases hx : pyStartswith (pstr "+++") l with
      | false => rfl
      | true => exact absurd (sw_plus_of_sw_plus3 l hx) (by simp [h1])
    cases h2 : pyStartswith (pstr "-") l with
    | true =>
      have hd : pyStartswith (pstr "diff") l = false := sw_diff_of_sw_minus l h2
      have hat : pyStartswith (pstr "@@") l = false := sw_at_of_sw_minus l h2
      refine ⟨⟨?_, ?_, ?_⟩, fun _ _ => ?_⟩ <;>
        simp [isAdditionLine, isDeletionLine, isContextLine, h1, h2, hd, hat, hp3]
    | false =>
      have hm3 : pyStartswith (pstr "---") l = false := by
        cases hx : pyStartswith (pstr "---") l with
        | false => rfl
        | true => exact absurd (sw_minus_of_sw_minus3 l hx) (by simp [h2])
      refine ⟨⟨?_, ?_, ?_⟩, fun hfh hhh => ?_⟩
      · simp [isAdditionLine, h1]
      · simp [isAdditionLine, h1]
      · simp [isDeletionLine, h2]
      · simp only [isHunkHeaderLine] at hhh
        simp [isAdditionLine, isDeletionLine, isContextLine, h1, h2, hp3, hm3, hhh]

/-- C7 witness: the amended equivalence evaluated at the ordinary context
line `" x"`. -/
theorem c7_classification_amended_witness :
    ((isAdditionLine (pstr " x") || isDeletionLine (pstr " x"))
        || isContextLine (pstr " x")) = true ↔
      ((pyStartswith (pstr "+++") (pstr " x") || pyStartswith (pstr "---") (pstr " x"))
        || pyStartswith (pstr "diff") (pstr " x")) = false :=
  (c7_classification_amended (pstr " x")).2 (by decide) (by decide)

/-- C8: on the empty DiffText (with the correspondingly empty
`diff-tree --name-only` output of a changeless commit) classification
completes without error, the per-file mapping is empty, and the file list is
the single empty-string placeholder `[""]` produced by
`"".strip().split("\n")`. -/
theorem c8_empty_diff :
    analyze_commit_changes (pstr "") (pstr "") (pstr "")
      = .ok [] [pstr ""] (pstr "") (pstr "") := rfl

/-- C9: on every FileHeader line the step sets `current_file` to the
substring following the last occurrence of `" b/"` (the code's
`line.split(" b/")[-1]`), and when the line contains no `" b/"` at all that
substring is the entire line. -/
theorem c9_file_header_path :
    (∀ (line : PyStr) (rest : List PyStr) (st : ScanState),
      isFileHeaderLine line = true →
      Except.map ScanState.current_file (scanStep line rest st)
        = .ok (some (afterLastOcc (pstr " b/") line)))
    ∧ (∀ line : PyStr, pyContains (pstr " b/") line = false →
        afterLastOcc (pstr " b/") line = line) := by
  refine ⟨fun line rest st hf => ?_, fun line h => afterLastOcc_of_not_contains h⟩
  simp [scanStep, hf, Except.map, extractFilePath_eq_afterLastOcc]

/-- C9 witness: the path extraction evaluated at a concrete header with an
occurrence and at a line without one. -/
theorem c9_file_header_path_witness :
    Except.map ScanState.current_file
      (scanStep (pstr "diff --git a/foo.py b/foo.py") [] (initialScanState []))
      = .ok (some (pstr "foo.py"))
    ∧ afterLastOcc (pstr " b/") (pstr "no-occurrence") = pstr "no-occurrence" :=
  ⟨c9_file_header_path.1 (pstr "diff --git a/foo.py b/foo.py") [] (initialScanState [])
      (by decide),
   c9_file_header_path.2 (pstr "no-occurrence") (by decide)⟩

/-- C10: an Addition (resp. Deletion) body line hit while `new_line_num`
(resp. `old_line_num`) is still `None` bumps the file's addition/deletion
and changes counters but leaves everything else — in particular the absent
`line_changes`/`class_method_changes` keys — untouched, and raises nothing;
consequently the counters can exceed the number of recorded change entries,
as on the DiffText `"-y"`, whose summary has deletions=2, changes=2 and no
recorded entry at all. -/
theorem c10_unset_cursor_counts_only :
    (∀ (line : PyStr) (rest : List PyStr) (st : ScanState),
      isAdditionLine line = true → st.new_line_num = none →
      scanStep line rest st
        = .ok { st with file_stats := bumpAddition st.file_stats st.current_file })
    ∧ (∀ (line : PyStr) (rest : List PyStr) (st : ScanState),
      isDeletionLine line = true → st.old_line_num = none →
      scanStep line rest st
        = .ok { st with file_stats := bumpDeletion st.file_stats st.current_file })
    ∧ analyze_commit_changes [] [] (pstr "-y")
        = .ok [(none, ⟨0, 2, 2, none, none⟩)] [[]] [] (pstr "-y") := by
  refine ⟨fun line rest st ha hn => ?_, fun line rest st hd ho => ?_, rfl⟩
  · have h1 : pyStartswith (pstr "+") line = true :=
      ((Bool.and_eq_true _ _).mp ha).1
    simp [scanStep, fileHeader_of_sw_plus line h1, isHunkHeaderLine,
      sw_at_of_sw_plus line h1, ha, additionStep, hn]
  · have h1 : pyStartswith (pstr "-") line = true :=
      ((Bool.and_eq_true _ _).mp hd).1
    have ha' : isAdditionLine line = false := by
      rw [isAdditionLine, sw_plus_of_sw_minus line h1]
      rfl
    simp [scanStep, fileHeader_of_sw_minus line h1, isHunkHeaderLine,
      sw_at_of_sw_minus line h1, ha', hd, deletionStep, ho]

/-- C10 witness: the addition case evaluated at `"+x"` from the initial
state (no hunk header seen, `new_line_num = None`). -/
theorem c10_unset_cursor_counts_only_witness :
    scanStep (pstr "+x") [] (initialScanState [])
      = .ok ⟨[(none, ⟨1, 0, 1, none, none⟩)], none, none, none, none, none⟩ :=
  c10_unset_cursor_counts_only.1 (pstr "+x") [] (initialScanState []) (by decide) rfl
